import Mathlib

/-!
Shallow embedding of the paper-trading ledger engine from
`src/trading/paperTradingSystem.ts` (class `PaperTradingSystem`), together with
the thin price-update driver from `src/services/limitOrderService.ts`.

Modelling conventions:
* JavaScript numbers are modelled as exact rationals (`ℚ`); all monetary
  arithmetic in the source is plain `+ - *` on numbers, which the rational
  model mirrors exactly on the decimal inputs used throughout.
* The mutable class instance becomes an explicit `SystemState` value threaded
  through the operations; methods that `throw` return `Except TradeError`.
* `Date.now()` (used for limit-execution timestamps and as a salt in order
  ids) is an ambient clock; it is passed in as an explicit `now : ℤ`
  parameter, and the order-id salt is dropped: uniqueness of ids within one
  engine instance is carried entirely by the strictly increasing
  `orderIdCounter`, exactly as in `generateOrderId`.
-/

namespace PaperTrading

/-- Trade direction, `'BUY' | 'SELL'` in the source. -/
inductive Action where
  | BUY
  | SELL
deriving DecidableEq

/-- Order kind, `'MARKET' | 'LIMIT'` in the source (interface `ITrade.orderType`). -/
inductive OrderType where
  | MARKET
  | LIMIT
deriving DecidableEq

/-- `IPosition`: an open position. -/
structure Position where
  symbol : String
  entryPrice : ℚ
  quantity : ℚ
  timestamp : ℤ
  strategy : String
deriving DecidableEq

instance : Inhabited Position := ⟨⟨"", 0, 0, 0, ""⟩⟩

/-- `ITrade`: a completed trade record. -/
structure Trade where
  symbol : String
  action : Action
  price : ℚ
  quantity : ℚ
  timestamp : ℤ
  strategy : String
  commission : ℚ
  orderType : OrderType
deriving DecidableEq

/-- `ILimitOrder`: a pending limit order. -/
structure LimitOrder where
  id : String
  symbol : String
  action : Action
  quantity : ℚ
  limitPrice : ℚ
  timestamp : ℤ
  strategy : String
deriving DecidableEq

/-- `IPortfolio`: the account state owned by the engine. -/
structure Portfolio where
  balance : ℚ
  positions : List Position
  trades : List Trade
  pendingLimitOrders : List LimitOrder
deriving DecidableEq

/-- The whole `PaperTradingSystem` instance state: the portfolio plus the
readonly commission rate (a percentage, `0.1` means 0.1%) and the order-id
counter. -/
structure SystemState where
  portfolio : Portfolio
  commission : ℚ
  orderIdCounter : ℕ
deriving DecidableEq

/-- Typed counterparts of the `throw new Error(...)` sites in the source. -/
inductive TradeError where
  /-- `'Limit price is required for limit orders'` (`executeTrade`). -/
  | limitPriceRequired
  /-- `'Insufficient balance to create buy limit order'` (`createLimitOrder`). -/
  | insufficientBalanceForLimitOrder
  /-- `'Insufficient position to create sell limit order...'` (`createLimitOrder`). -/
  | insufficientPosition
  /-- `'Insufficient balance to execute buy order'` (`executeMarketOrder`). -/
  | insufficientBalance
  /-- `'No matching position found for ...'` (`executeMarketOrder`). -/
  | noMatchingPosition
deriving DecidableEq

/-- Constructor call `new PaperTradingSystem({initialBalance, commission})`. -/
def mkSystem (initialBalance commission : ℚ) : SystemState :=
  { portfolio := { balance := initialBalance, positions := [], trades := [], pendingLimitOrders := [] },
    commission := commission,
    orderIdCounter := 0 }

/-- `generateOrderId`: returns `` `LO_${++this.orderIdCounter}_${Date.now()}` ``.
The `Date.now()` salt is dropped (see the module comment); the argument is the
already-incremented counter value. -/
def generateOrderId (counter : ℕ) : String :=
  "LO_" ++ toString counter

/-- The matching predicate of the `positions.findIndex` call in the SELL branch
of `executeMarketOrder`: same symbol and `pos.quantity >= quantity`. -/
def sellMatches (symbol : String) (quantity : ℚ) (pos : Position) : Bool :=
  pos.symbol == symbol && decide (quantity ≤ pos.quantity)

/-- `executeMarketOrder(symbol, action, price, quantity, strategy, timestamp)`.
BUY: require `balance ≥ tradeValue + commissionAmount`, append a position,
debit the balance. SELL: find the first position with the same symbol and
sufficient quantity (`findIndex`), credit the balance, then remove the position
(`splice`) if fully sold or decrement its quantity in place. Both record a
MARKET trade. -/
def executeMarketOrder (rate : ℚ) (symbol : String) (action : Action)
    (price quantity : ℚ) (strategy : String) (timestamp : ℤ)
    (p : Portfolio) : Except TradeError Portfolio :=
  let tradeValue := price * quantity
  let commissionAmount := tradeValue * (rate / 100)
  let newTrade : Trade :=
    { symbol := symbol, action := action, price := price, quantity := quantity,
      timestamp := timestamp, strategy := strategy, commission := commissionAmount,
      orderType := OrderType.MARKET }
  match action with
  | Action.BUY =>
    if p.balance < tradeValue + commissionAmount then
      Except.error TradeError.insufficientBalance
    else
      Except.ok
        { p with
          positions := p.positions ++
            [{ symbol := symbol, entryPrice := price, quantity := quantity,
               timestamp := timestamp, strategy := strategy }],
          balance := p.balance - (tradeValue + commissionAmount),
          trades := p.trades ++ [newTrade] }
  | Action.SELL =>
    match p.positions.findIdx? (sellMatches symbol quantity) with
    | none => Except.error TradeError.noMatchingPosition
    | some positionIndex =>
      let position := p.positions.getD positionIndex default
      let newPositions :=
        if position.quantity = quantity then
          p.positions.eraseIdx positionIndex
        else
          p.positions.set positionIndex { position with quantity := position.quantity - quantity }
      Except.ok
        { p with
          balance := p.balance + (price * quantity - commissionAmount),
          positions := newPositions,
          trades := p.trades ++ [newTrade] }

/-- `positions.filter(pos => pos.symbol === symbol).reduce((sum, pos) => sum + pos.quantity, 0)`
from the SELL branch of `createLimitOrder`. -/
def totalAvailableQuantity (symbol : String) (positions : List Position) : ℚ :=
  (positions.filter (fun pos => pos.symbol == symbol)).foldl (fun sum pos => sum + pos.quantity) 0

/-- `pendingLimitOrders.filter(o => o.symbol === symbol && o.action === 'SELL').reduce(...)`
from the SELL branch of `createLimitOrder`. -/
def pendingSellQuantity (symbol : String) (orders : List LimitOrder) : ℚ :=
  (orders.filter (fun order => order.symbol == symbol && order.action == Action.SELL)).foldl
    (fun sum order => sum + order.quantity) 0

/-- `createLimitOrder(symbol, action, quantity, limitPrice, timestamp, strategy)`.
BUY: only CHECK that the balance covers `limitPrice × quantity` plus
commission (no debit happens). SELL: require the total position quantity for
the symbol to cover the requested quantity plus all already-pending sell
quantity for the symbol. On success, push the new order onto
`pendingLimitOrders` (the only state change besides the id counter). -/
def createLimitOrder (symbol : String) (action : Action) (quantity limitPrice : ℚ)
    (timestamp : ℤ) (strategy : String) (s : SystemState) : Except TradeError SystemState :=
  let tradeValue := limitPrice * quantity
  let commissionAmount := tradeValue * (s.commission / 100)
  if action = Action.BUY ∧ s.portfolio.balance < tradeValue + commissionAmount then
    Except.error TradeError.insufficientBalanceForLimitOrder
  else if action = Action.SELL ∧
      totalAvailableQuantity symbol s.portfolio.positions <
        quantity + pendingSellQuantity symbol s.portfolio.pendingLimitOrders then
    Except.error TradeError.insufficientPosition
  else
    let limitOrder : LimitOrder :=
      { id := generateOrderId (s.orderIdCounter + 1), symbol := symbol, action := action,
        quantity := quantity, limitPrice := limitPrice, timestamp := timestamp,
        strategy := strategy }
    Except.ok
      { s with
        portfolio := { s.portfolio with
          pendingLimitOrders := s.portfolio.pendingLimitOrders ++ [limitOrder] },
        orderIdCounter := s.orderIdCounter + 1 }

/-- The `lastTrade.orderType = 'LIMIT'` patch in `executeLimitOrder`: relabel
the last recorded trade, if any. -/
def markLastTradeLimit : List Trade → List Trade
  | [] => []
  | [t] => [{ t with orderType := OrderType.LIMIT }]
  | t :: t2 :: rest => t :: markLastTradeLimit (t2 :: rest)

/-- `executeLimitOrder(order, executionPrice)`: run `executeMarketOrder` at the
execution price with the order's fields (timestamp `Date.now()`, here `now`),
then relabel the last trade as a LIMIT trade. -/
def executeLimitOrder (rate : ℚ) (order : LimitOrder) (executionPrice : ℚ) (now : ℤ)
    (p : Portfolio) : Except TradeError Portfolio :=
  match executeMarketOrder rate order.symbol order.action executionPrice order.quantity
    order.strategy now p with
  | Except.error e => Except.error e
  | Except.ok p2 => Except.ok { p2 with trades := markLastTradeLimit p2.trades }

/-- The trigger test in the scan loop of `checkAndExecuteLimitOrders`: the
order is for this symbol, and BUY fires when `currentPrice ≤ limitPrice`,
SELL when `currentPrice ≥ limitPrice`. -/
def shouldExecuteOrder (symbol : String) (currentPrice : ℚ) (order : LimitOrder) : Bool :=
  order.symbol == symbol &&
    ((order.action == Action.BUY && decide (currentPrice ≤ order.limitPrice)) ||
     (order.action == Action.SELL && decide (order.limitPrice ≤ currentPrice)))

/-- One iteration of the execution loop of `checkAndExecuteLimitOrders`:
`try { executeLimitOrder(...); remove the order from pending } catch { keep it }`. -/
def executeOrdersStep (rate currentPrice : ℚ) (now : ℤ) (p : Portfolio)
    (order : LimitOrder) : Portfolio :=
  match executeLimitOrder rate order currentPrice now p with
  | Except.ok p2 =>
    { p2 with pendingLimitOrders := p2.pendingLimitOrders.filter (fun pending => !(pending.id == order.id)) }
  | Except.error _ => p

/-- `checkAndExecuteLimitOrders(symbol, currentPrice)`: collect every pending
order for the symbol whose trigger condition holds (scanning
`pendingLimitOrders` in order), then execute the candidates one by one; a
failed execution is caught, leaving the order pending, and the loop continues. -/
def checkAndExecuteLimitOrders (rate : ℚ) (symbol : String) (currentPrice : ℚ) (now : ℤ)
    (p : Portfolio) : Portfolio :=
  let ordersToExecute := p.pendingLimitOrders.filter (shouldExecuteOrder symbol currentPrice)
  ordersToExecute.foldl (executeOrdersStep rate currentPrice now) p

/-- `updateMarketPrice(symbol, price)`: public wrapper that just runs
`checkAndExecuteLimitOrders`. -/
def updateMarketPrice (symbol : String) (price : ℚ) (now : ℤ) (s : SystemState) : SystemState :=
  { s with portfolio := checkAndExecuteLimitOrders s.commission symbol price now s.portfolio }

/-- `cancelLimitOrder(orderId)`: find the pending order by id (`findIndex`);
return `false` untouched if absent, else remove it (`splice(index, 1)`) and
return `true`. -/
def cancelLimitOrder (orderId : String) (p : Portfolio) : Bool × Portfolio :=
  match p.pendingLimitOrders.findIdx? (fun order => order.id == orderId) with
  | none => (false, p)
  | some orderIndex =>
    (true, { p with pendingLimitOrders := p.pendingLimitOrders.eraseIdx orderIndex })

/-- The fields of `ITradingViewWebhook` consumed by `executeTrade`:
`{symbol, action, price, quantity, strategy, timestamp, orderType = 'MARKET', limitPrice}`. -/
structure TradeRequest where
  symbol : String
  action : Action
  price : ℚ
  quantity : ℚ
  strategy : String
  timestamp : ℤ
  orderType : OrderType
  limitPrice : Option ℚ
deriving DecidableEq

/-- `executeTrade(trade)`: LIMIT orders require a limit price (the JavaScript
test `!limitPrice` also rejects an explicit `0`) and go to `createLimitOrder`;
MARKET orders run `executeMarketOrder` and then resolve pending limit orders
for the same symbol at the market price. -/
def executeTrade (now : ℤ) (req : TradeRequest) (s : SystemState) : Except TradeError SystemState :=
  match req.orderType with
  | OrderType.LIMIT =>
    match req.limitPrice with
    | none => Except.error TradeError.limitPriceRequired
    | some lp =>
      if lp = 0 then Except.error TradeError.limitPriceRequired
      else createLimitOrder req.symbol req.action req.quantity lp req.timestamp req.strategy s
  | OrderType.MARKET =>
    match executeMarketOrder s.commission req.symbol req.action req.price req.quantity
      req.strategy req.timestamp s.portfolio with
    | Except.error e => Except.error e
    | Except.ok p2 =>
      Except.ok { s with
        portfolio := checkAndExecuteLimitOrders s.commission req.symbol req.price now p2 }

/-- One externally visible engine operation: an order submission
(`executeTrade`), a price tick (`updateMarketPrice`), or a cancellation
(`cancelLimitOrder`). A submission that throws leaves the state unchanged
(every throw site in the source precedes any mutation). -/
inductive EngineOp where
  | submit (now : ℤ) (req : TradeRequest)
  | priceUpdate (symbol : String) (price : ℚ) (now : ℤ)
  | cancelOp (orderId : String)

/-- Apply one engine operation to the state. -/
def applyOp (s : SystemState) : EngineOp → SystemState
  | EngineOp.submit now req =>
    match executeTrade now req s with
    | Except.ok s2 => s2
    | Except.error _ => s
  | EngineOp.priceUpdate symbol price now => updateMarketPrice symbol price now s
  | EngineOp.cancelOp orderId =>
    { s with portfolio := (cancelLimitOrder orderId s.portfolio).2 }

/-- Run a sequence of engine operations from a state. -/
def runOps (s : SystemState) (ops : List EngineOp) : SystemState :=
  ops.foldl applyOp s

/-! ### Characterization lemmas for the engine primitives -/

/-- The trade record appended by a successful `executeMarketOrder`. -/
def marketTradeRecord (rate : ℚ) (symbol : String) (action : Action) (price quantity : ℚ)
    (timestamp : ℤ) (strategy : String) : Trade :=
  { symbol := symbol, action := action, price := price, quantity := quantity,
    timestamp := timestamp, strategy := strategy,
    commission := price * quantity * (rate / 100), orderType := OrderType.MARKET }

/-- The trade record a successful limit execution leaves in the log: the market
trade of `executeMarketOrder` relabelled LIMIT by `executeLimitOrder`. -/
def limitTradeRecord (rate currentPrice : ℚ) (now : ℤ) (order : LimitOrder) : Trade :=
  { symbol := order.symbol, action := order.action, price := currentPrice,
    quantity := order.quantity, timestamp := now, strategy := order.strategy,
    commission := currentPrice * order.quantity * (rate / 100), orderType := OrderType.LIMIT }

theorem executeMarketOrder_buy_ok (rate price quantity : ℚ) (symbol strategy : String)
    (timestamp : ℤ) (p : Portfolio)
    (h : ¬ p.balance < price * quantity + price * quantity * (rate / 100)) :
    executeMarketOrder rate symbol Action.BUY price quantity strategy timestamp p =
      Except.ok
        { p with
          positions := p.positions ++
            [{ symbol := symbol, entryPrice := price, quantity := quantity,
               timestamp := timestamp, strategy := strategy }],
          balance := p.balance - (price * quantity + price * quantity * (rate / 100)),
          trades := p.trades ++ [marketTradeRecord rate symbol Action.BUY price quantity timestamp strategy] } := by
  simp [executeMarketOrder, marketTradeRecord, h]

theorem executeMarketOrder_buy_err (rate price quantity : ℚ) (symbol strategy : String)
    (timestamp : ℤ) (p : Portfolio)
    (h : p.balance < price * quantity + price * quantity * (rate / 100)) :
    executeMarketOrder rate symbol Action.BUY price quantity strategy timestamp p =
      Except.error TradeError.insufficientBalance := by
  simp [executeMarketOrder, h]

theorem executeMarketOrder_sell_none (rate price quantity : ℚ) (symbol strategy : String)
    (timestamp : ℤ) (p : Portfolio)
    (h : p.positions.findIdx? (sellMatches symbol quantity) = none) :
    executeMarketOrder rate symbol Action.SELL price quantity strategy timestamp p =
      Except.error TradeError.noMatchingPosition := by
  simp [executeMarketOrder, h]

theorem executeMarketOrder_sell_some (rate price quantity : ℚ) (symbol strategy : String)
    (timestamp : ℤ) (p : Portfolio) (i : ℕ)
    (h : p.positions.findIdx? (sellMatches symbol quantity) = some i) :
    executeMarketOrder rate symbol Action.SELL price quantity strategy timestamp p =
      Except.ok
        { p with
          balance := p.balance + (price * quantity - price * quantity * (rate / 100)),
          positions :=
            if (p.positions.getD i default).quantity = quantity then
              p.positions.eraseIdx i
            else
              p.positions.set i
                { p.positions.getD i default with quantity := (p.positions.getD i default).quantity - quantity },
          trades := p.trades ++ [marketTradeRecord rate symbol Action.SELL price quantity timestamp strategy] } := by
  simp [executeMarketOrder, marketTradeRecord, h]

/-- A successful `executeMarketOrder` never touches `pendingLimitOrders` and
appends exactly one MARKET trade record. -/
theorem executeMarketOrder_ok_frame (rate price quantity : ℚ) (symbol strategy : String)
    (action : Action) (timestamp : ℤ) (p p2 : Portfolio)
    (h : executeMarketOrder rate symbol action price quantity strategy timestamp p = Except.ok p2) :
    p2.pendingLimitOrders = p.pendingLimitOrders ∧
    p2.trades = p.trades ++ [marketTradeRecord rate symbol action price quantity timestamp strategy] := by
  cases action with
  | BUY =>
    by_cases hc : p.balance < price * quantity + price * quantity * (rate / 100)
    · rw [executeMarketOrder_buy_err rate price quantity symbol strategy timestamp p hc] at h
      exact absurd h (by simp)
    · rw [executeMarketOrder_buy_ok rate price quantity symbol strategy timestamp p hc] at h
      cases h
      exact ⟨rfl, rfl⟩
  | SELL =>
    cases hf : p.positions.findIdx? (sellMatches symbol quantity) with
    | none =>
      rw [executeMarketOrder_sell_none rate price quantity symbol strategy timestamp p hf] at h
      exact absurd h (by simp)
    | some i =>
      rw [executeMarketOrder_sell_some rate price quantity symbol strategy timestamp p i hf] at h
      cases h
      exact ⟨rfl, rfl⟩

/-- Balance accounting of a successful `executeMarketOrder`: a BUY debits the
checked amount, a SELL credits the proceeds net of commission. -/
theorem executeMarketOrder_ok_balance (rate price quantity : ℚ) (symbol strategy : String)
    (action : Action) (timestamp : ℤ) (p p2 : Portfolio)
    (h : executeMarketOrder rate symbol action price quantity strategy timestamp p = Except.ok p2) :
    (action = Action.BUY →
      p2.balance = p.balance - (price * quantity + price * quantity * (rate / 100)) ∧
      price * quantity + price * quantity * (rate / 100) ≤ p.balance) ∧
    (action = Action.SELL →
      p2.balance = p.balance + (price * quantity - price * quantity * (rate / 100))) := by
  cases action with
  | BUY =>
    by_cases hc : p.balance < price * quantity + price * quantity * (rate / 100)
    · rw [executeMarketOrder_buy_err rate price quantity symbol strategy timestamp p hc] at h
      exact absurd h (by simp)
    · rw [executeMarketOrder_buy_ok rate price quantity symbol strategy timestamp p hc] at h
      cases h
      exact ⟨fun _ => ⟨rfl, le_of_not_lt hc⟩, fun hs => by cases hs⟩
  | SELL =>
    cases hf : p.positions.findIdx? (sellMatches symbol quantity) with
    | none =>
      rw [executeMarketOrder_sell_none rate price quantity symbol strategy timestamp p hf] at h
      exact absurd h (by simp)
    | some i =>
      rw [executeMarketOrder_sell_some rate price quantity symbol strategy timestamp p i hf] at h
      cases h
      refine ⟨fun hb => ?_, fun _ => rfl⟩
      cases hb

theorem markLastTradeLimit_append (ts : List Trade) (t : Trade) :
    markLastTradeLimit (ts ++ [t]) = ts ++ [{ t with orderType := OrderType.LIMIT }] := by
  induction ts with
  | nil => rfl
  | cons a rest ih =>
    cases rest with
    | nil => rfl
    | cons b rest2 =>
      simpa [markLastTradeLimit] using ih

/-- A successful `executeLimitOrder` is a successful `executeMarketOrder`
followed by the LIMIT relabelling of the appended trade. -/
theorem executeLimitOrder_ok (rate currentPrice : ℚ) (now : ℤ) (order : LimitOrder)
    (p p2 : Portfolio)
    (h : executeMarketOrder rate order.symbol order.action currentPrice order.quantity
      order.strategy now p = Except.ok p2) :
    executeLimitOrder rate order currentPrice now p =
      Except.ok { p2 with trades := markLastTradeLimit p2.trades } := by
  simp [executeLimitOrder, h]

theorem executeLimitOrder_err (rate currentPrice : ℚ) (now : ℤ) (order : LimitOrder)
    (p : Portfolio) (e : TradeError)
    (h : executeMarketOrder rate order.symbol order.action currentPrice order.quantity
      order.strategy now p = Except.error e) :
    executeLimitOrder rate order currentPrice now p = Except.error e := by
  simp [executeLimitOrder, h]

/-- Shape of a successful limit execution: pending orders untouched, the
LIMIT-tagged trade appended. -/
theorem executeLimitOrder_ok_shape (rate currentPrice : ℚ) (now : ℤ) (order : LimitOrder)
    (p p2 : Portfolio)
    (h : executeLimitOrder rate order currentPrice now p = Except.ok p2) :
    p2.pendingLimitOrders = p.pendingLimitOrders ∧
    p2.trades = p.trades ++ [limitTradeRecord rate currentPrice now order] := by
  unfold executeLimitOrder at h
  cases hm : executeMarketOrder rate order.symbol order.action currentPrice order.quantity
      order.strategy now p with
  | error e => rw [hm] at h; exact absurd h (by simp)
  | ok pm =>
    rw [hm] at h
    simp only [Except.ok.injEq] at h
    have hframe := executeMarketOrder_ok_frame rate currentPrice order.quantity order.symbol
      order.strategy order.action now p pm hm
    subst h
    refine ⟨hframe.1, ?_⟩
    simp only [hframe.2, markLastTradeLimit_append]
    rfl

/-- Constructor disequality, phrased as a rewrite rule for `if` conditions. -/
theorem buyEqSellFalse : (Action.BUY = Action.SELL) = False := eq_false (by decide)

/-- Constructor disequality, phrased as a rewrite rule for `if` conditions. -/
theorem sellEqBuyFalse : (Action.SELL = Action.BUY) = False := eq_false (by decide)

/-! ### Claim C1: limit-BUY creation and the balance -/

/-- The submission of spec example 3: `LIMIT` BUY of 0.1 BTCUSDT at limit
price 49000, market price 50000. -/
def c1req : TradeRequest :=
  { symbol := "BTCUSDT", action := Action.BUY, price := 50000, quantity := 0.1,
    strategy := "TEST", timestamp := 0, orderType := OrderType.LIMIT, limitPrice := some 49000 }

/-- The state the engine actually reaches after submitting `c1req` on a fresh
10000-balance account with 0.1% commission. -/
def c1result : SystemState :=
  { portfolio :=
      { balance := 10000, positions := [], trades := [],
        pendingLimitOrders :=
          [{ id := "LO_1", symbol := "BTCUSDT", action := Action.BUY, quantity := 0.1,
             limitPrice := 49000, timestamp := 0, strategy := "TEST" }] },
    commission := 0.1, orderIdCounter := 1 }

/-- C1 counterexample: on a fresh account with balance 10000 and commission
rate 0.1%, submitting a LIMIT_BUY for qty 0.1 at limit price 49000 leaves the
balance at 10000, not at the claimed 5095.1 — no reserved amount is debited at
creation time. -/
theorem claim1_counterexample :
    executeTrade 0 c1req (mkSystem 10000 0.1) = Except.ok c1result ∧
    c1result.portfolio.balance = 10000 ∧ ¬ c1result.portfolio.balance = 5095.1 := by
  refine ⟨?_, by norm_num [c1result], by norm_num [c1result]⟩
  norm_num [executeTrade, c1req, mkSystem, createLimitOrder, totalAvailableQuantity,
    pendingSellQuantity, generateOrderId, c1result]
  rfl

/-- C1 (amended): when a LIMIT_BUY order is submitted with sufficient balance
(`balance ≥ limitPrice × quantity × (1 + commissionRate/100)`), the engine
merely CHECKS the balance — it is not debited — and appends one LimitOrder to
`pendingLimitOrders`, leaving balance, trades and positions unchanged; on the
fresh 10000-balance example the balance therefore stays 10000. -/
theorem claim1_theorem (now ts : ℤ) (sym strat : String) (pr q lp : ℚ) (s : SystemState)
    (hlp : lp ≠ 0)
    (hbal : ¬ s.portfolio.balance < lp * q + lp * q * (s.commission / 100)) :
    executeTrade now
        { symbol := sym, action := Action.BUY, price := pr, quantity := q, strategy := strat,
          timestamp := ts, orderType := OrderType.LIMIT, limitPrice := some lp } s =
      Except.ok
        { s with
          portfolio := { s.portfolio with
            pendingLimitOrders := s.portfolio.pendingLimitOrders ++
              [{ id := generateOrderId (s.orderIdCounter + 1), symbol := sym,
                 action := Action.BUY, quantity := q, limitPrice := lp,
                 timestamp := ts, strategy := strat }] },
          orderIdCounter := s.orderIdCounter + 1 } := by
  simp [executeTrade, createLimitOrder, hlp, hbal]

/-- C1 witness: the amended statement instantiated on the fresh account. -/
theorem claim1_witness :
    (49000 : ℚ) ≠ 0 ∧
    ¬ (mkSystem 10000 0.1).portfolio.balance <
        49000 * 0.1 + 49000 * 0.1 * ((mkSystem 10000 0.1).commission / 100) ∧
    executeTrade 0
        { symbol := "BTCUSDT", action := Action.BUY, price := 50000, quantity := 0.1,
          strategy := "TEST", timestamp := 0, orderType := OrderType.LIMIT,
          limitPrice := some 49000 } (mkSystem 10000 0.1) =
      Except.ok
        { mkSystem 10000 0.1 with
          portfolio := { (mkSystem 10000 0.1).portfolio with
            pendingLimitOrders := (mkSystem 10000 0.1).portfolio.pendingLimitOrders ++
              [{ id := generateOrderId ((mkSystem 10000 0.1).orderIdCounter + 1),
                 symbol := "BTCUSDT", action := Action.BUY, quantity := 0.1,
                 limitPrice := 49000, timestamp := 0, strategy := "TEST" }] },
          orderIdCounter := (mkSystem 10000 0.1).orderIdCounter + 1 } :=
  ⟨by norm_num, by norm_num [mkSystem],
    claim1_theorem 0 0 "BTCUSDT" "TEST" 50000 0.1 49000 (mkSystem 10000 0.1)
      (by norm_num) (by norm_num [mkSystem])⟩

/-! ### Claim C4: there is no quantity validation -/

/-- A market BUY with quantity 0. -/
def c4req : TradeRequest :=
  { symbol := "BTCUSDT", action := Action.BUY, price := 50000, quantity := 0,
    strategy := "TEST", timestamp := 0, orderType := OrderType.MARKET, limitPrice := none }

/-- The state the engine reaches after the zero-quantity BUY of `c4req`. -/
def c4result : SystemState :=
  { portfolio :=
      { balance := 10000,
        positions := [{ symbol := "BTCUSDT", entryPrice := 50000, quantity := 0,
                        timestamp := 0, strategy := "TEST" }],
        trades := [{ symbol := "BTCUSDT", action := Action.BUY, price := 50000, quantity := 0,
                     timestamp := 0, strategy := "TEST", commission := 0,
                     orderType := OrderType.MARKET }],
        pendingLimitOrders := [] },
    commission := 0.1, orderIdCounter := 0 }

/-- C4 counterexample: a market BUY with quantity 0 is NOT rejected — the
engine performs no quantity validation at all; the order goes through,
appending a zero-quantity position and a trade record. -/
theorem claim4_counterexample :
    executeTrade 0 c4req (mkSystem 10000 0.1) = Except.ok c4result ∧
    c4result.portfolio.positions.length = 1 ∧ c4result.portfolio.trades.length = 1 := by
  refine ⟨?_, rfl, rfl⟩
  norm_num [executeTrade, c4req, mkSystem, c4result, executeMarketOrder,
    checkAndExecuteLimitOrders, shouldExecuteOrder]

/-- C4 (amended): the engine performs no quantity validation: for every
non-positive quantity (given a non-negative price, commission rate and
balance) a market BUY is accepted, appending a position and a trade with that
non-positive quantity — there is no `InvalidQuantity` rejection anywhere in
the engine. -/
theorem claim4_theorem (rate price quantity : ℚ) (symbol strategy : String)
    (timestamp : ℤ) (p : Portfolio)
    (hq : quantity ≤ 0) (hpr : 0 ≤ price) (hrate : 0 ≤ rate) (hbal : 0 ≤ p.balance) :
    executeMarketOrder rate symbol Action.BUY price quantity strategy timestamp p =
      Except.ok
        { p with
          positions := p.positions ++
            [{ symbol := symbol, entryPrice := price, quantity := quantity,
               timestamp := timestamp, strategy := strategy }],
          balance := p.balance - (price * quantity + price * quantity * (rate / 100)),
          trades := p.trades ++
            [marketTradeRecord rate symbol Action.BUY price quantity timestamp strategy] } := by
  have h1 : price * quantity ≤ 0 := mul_nonpos_of_nonneg_of_nonpos hpr hq
  have h2 : price * quantity * (rate / 100) ≤ 0 :=
    mul_nonpos_of_nonpos_of_nonneg h1 (by positivity)
  exact executeMarketOrder_buy_ok rate price quantity symbol strategy timestamp p
    (by linarith)

/-- C4 witness: the amended statement instantiated at quantity 0 on the fresh
account. -/
theorem claim4_witness :
    (0 : ℚ) ≤ 0 ∧ (0 : ℚ) ≤ 50000 ∧ (0 : ℚ) ≤ 0.1 ∧
    (0 : ℚ) ≤ (mkSystem 10000 0.1).portfolio.balance ∧
    executeMarketOrder 0.1 "BTCUSDT" Action.BUY 50000 0 "TEST" 0 (mkSystem 10000 0.1).portfolio =
      Except.ok
        { (mkSystem 10000 0.1).portfolio with
          positions := (mkSystem 10000 0.1).portfolio.positions ++
            [{ symbol := "BTCUSDT", entryPrice := 50000, quantity := 0,
               timestamp := 0, strategy := "TEST" }],
          balance := (mkSystem 10000 0.1).portfolio.balance - (50000 * 0 + 50000 * 0 * (0.1 / 100)),
          trades := (mkSystem 10000 0.1).portfolio.trades ++
            [marketTradeRecord 0.1 "BTCUSDT" Action.BUY 50000 0 0 "TEST"] } :=
  ⟨le_refl 0, by norm_num, by norm_num, by norm_num [mkSystem],
    claim4_theorem 0.1 50000 0 "BTCUSDT" "TEST" 0 (mkSystem 10000 0.1).portfolio
      (le_refl 0) (by norm_num) (by norm_num) (by norm_num [mkSystem])⟩

/-! ### Claim C2: execution of a triggered LIMIT_BUY -/

/-- The resting LIMIT_BUY order of the C2 scenario. -/
def c2order : LimitOrder :=
  { id := "LO_1", symbol := "BTCUSDT", action := Action.BUY, quantity := 0.1,
    limitPrice := 49000, timestamp := 0, strategy := "TEST" }

/-- The three-step C2 scenario: rest a LIMIT_BUY for 0.1 BTCUSDT at 49000,
spend most of the balance on a market BUY of another symbol, then tick the
BTCUSDT price down to 48000 (which triggers the resting order). -/
def c2ops : List EngineOp :=
  [ EngineOp.submit 0
      { symbol := "BTCUSDT", action := Action.BUY, price := 50000, quantity := 0.1,
        strategy := "TEST", timestamp := 0, orderType := OrderType.LIMIT, limitPrice := some 49000 },
    EngineOp.submit 0
      { symbol := "ETHUSDT", action := Action.BUY, price := 50000, quantity := 0.19,
        strategy := "TEST", timestamp := 0, orderType := OrderType.MARKET, limitPrice := none },
    EngineOp.priceUpdate "BTCUSDT" 48000 0 ]

/-- State after the first C2 step. -/
def c2state1 : SystemState :=
  { portfolio := { balance := 10000, positions := [], trades := [], pendingLimitOrders := [c2order] },
    commission := 0.1, orderIdCounter := 1 }

/-- State after the second (and, as the counterexample shows, also the third)
C2 step. -/
def c2state2 : SystemState :=
  { portfolio :=
      { balance := 490.5,
        positions := [{ symbol := "ETHUSDT", entryPrice := 50000, quantity := 0.19,
                        timestamp := 0, strategy := "TEST" }],
        trades := [marketTradeRecord 0.1 "ETHUSDT" Action.BUY 50000 0.19 0 "TEST"],
        pendingLimitOrders := [c2order] },
    commission := 0.1, orderIdCounter := 1 }

/-- C2 counterexample: in the reachable state after the first two steps of
`c2ops`, the price update to 48000 triggers the pending LIMIT_BUY
(`shouldExecuteOrder` holds for it), yet no BTCUSDT position is appended and
the order stays pending with the balance untouched — because execution does
re-check the (now insufficient) balance, contradicting the claimed
refund/no-additional-check behaviour. -/
theorem claim2_counterexample :
    ((runOps (mkSystem 10000 0.1) c2ops).portfolio.pendingLimitOrders.map fun o => o.symbol) = ["BTCUSDT"] ∧
    ((runOps (mkSystem 10000 0.1) c2ops).portfolio.pendingLimitOrders.all
      (shouldExecuteOrder "BTCUSDT" 48000)) = true ∧
    ((runOps (mkSystem 10000 0.1) c2ops).portfolio.positions.map fun pos => pos.symbol) = ["ETHUSDT"] ∧
    (runOps (mkSystem 10000 0.1) c2ops).portfolio.balance = 490.5 := by
  have h1 : applyOp (mkSystem 10000 0.1) (c2ops.get ⟨0, by norm_num [c2ops]⟩) = c2state1 := by
    norm_num [applyOp, c2ops, executeTrade, createLimitOrder, mkSystem, generateOrderId,
      buyEqSellFalse, c2state1, c2order]
    rfl
  have h2 : applyOp c2state1 (c2ops.get ⟨1, by norm_num [c2ops]⟩) = c2state2 := by
    norm_num [applyOp, c2ops, executeTrade, executeMarketOrder, checkAndExecuteLimitOrders,
      shouldExecuteOrder, c2state1, c2state2, c2order, marketTradeRecord, buyEqSellFalse]
  have h3 : applyOp c2state2 (c2ops.get ⟨2, by norm_num [c2ops]⟩) = c2state2 := by
    norm_num [applyOp, c2ops, updateMarketPrice, checkAndExecuteLimitOrders, shouldExecuteOrder,
      executeOrdersStep, executeLimitOrder, executeMarketOrder, c2state2, c2order, buyEqSellFalse]
  have hrun : runOps (mkSystem 10000 0.1) c2ops = c2state2 := by
    have hc : c2ops = [c2ops.get ⟨0, by norm_num [c2ops]⟩, c2ops.get ⟨1, by norm_num [c2ops]⟩,
        c2ops.get ⟨2, by norm_num [c2ops]⟩] := rfl
    rw [runOps, hc, List.foldl_cons, List.foldl_cons, List.foldl_cons, List.foldl_nil, h1, h2, h3]
  rw [hrun]
  refine ⟨by norm_num [c2state2, c2order], ?_, by norm_num [c2state2], by norm_num [c2state2]⟩
  norm_num [c2state2, c2order, shouldExecuteOrder]

/-- C2 (amended): execution of a triggered LIMIT_BUY at `currentPrice` is a
fresh market BUY at `currentPrice`: if the CURRENT balance covers
`currentPrice × qty × (1 + commissionRate/100)` the engine appends a Position
at entry `currentPrice`, debits that full cost (nothing was reserved at
creation, so nothing is refunded) and appends a LIMIT-tagged trade; otherwise
the execution-time balance check fails with `InsufficientBalance` (and the
caller keeps the order pending). -/
theorem claim2_theorem (rate currentPrice : ℚ) (now : ℤ) (order : LimitOrder) (p : Portfolio)
    (horder : order.action = Action.BUY) :
    (¬ p.balance < currentPrice * order.quantity + currentPrice * order.quantity * (rate / 100) →
      executeLimitOrder rate order currentPrice now p =
        Except.ok
          { p with
            positions := p.positions ++
              [{ symbol := order.symbol, entryPrice := currentPrice, quantity := order.quantity,
                 timestamp := now, strategy := order.strategy }],
            balance := p.balance -
              (currentPrice * order.quantity + currentPrice * order.quantity * (rate / 100)),
            trades := p.trades ++ [limitTradeRecord rate currentPrice now order] }) ∧
    (p.balance < currentPrice * order.quantity + currentPrice * order.quantity * (rate / 100) →
      executeLimitOrder rate order currentPrice now p =
        Except.error TradeError.insufficientBalance) := by
  constructor
  · intro hbal
    have hm : executeMarketOrder rate order.symbol order.action currentPrice order.quantity
        order.strategy now p =
        Except.ok
          { p with
            positions := p.positions ++
              [{ symbol := order.symbol, entryPrice := currentPrice, quantity := order.quantity,
                 timestamp := now, strategy := order.strategy }],
            balance := p.balance -
              (currentPrice * order.quantity + currentPrice * order.quantity * (rate / 100)),
            trades := p.trades ++ [marketTradeRecord rate order.symbol Action.BUY currentPrice
              order.quantity now order.strategy] } := by
      rw [horder]
      exact executeMarketOrder_buy_ok rate currentPrice order.quantity order.symbol
        order.strategy now p hbal
    rw [executeLimitOrder_ok rate currentPrice now order p _ hm]
    simp [markLastTradeLimit_append, limitTradeRecord, marketTradeRecord, horder]
  · intro hbal
    refine executeLimitOrder_err rate currentPrice now order p _ ?_
    rw [horder]
    exact executeMarketOrder_buy_err rate currentPrice order.quantity order.symbol
      order.strategy now p hbal

/-- C2 witness: the amended statement instantiated on the C2 scenario order. -/
theorem claim2_witness :
    c2order.action = Action.BUY ∧
    ((¬ (10000 : ℚ) < 48000 * c2order.quantity + 48000 * c2order.quantity * (0.1 / 100)) →
      executeLimitOrder 0.1 c2order 48000 0
          { balance := 10000, positions := [], trades := [], pendingLimitOrders := [c2order] } =
        Except.ok
          { balance := (10000 : ℚ) -
              (48000 * c2order.quantity + 48000 * c2order.quantity * (0.1 / 100)),
            positions := [{ symbol := c2order.symbol, entryPrice := 48000,
                            quantity := c2order.quantity, timestamp := 0,
                            strategy := c2order.strategy }],
            trades := [limitTradeRecord 0.1 48000 0 c2order],
            pendingLimitOrders := [c2order] }) :=
  ⟨rfl, by
    have h := (claim2_theorem 0.1 48000 0 c2order
      { balance := 10000, positions := [], trades := [], pendingLimitOrders := [c2order] } rfl).1
    intro hbal
    simpa using h hbal⟩

/-! ### Claim C3: failure handling during limit-order resolution -/

/-- First resting SELL order of the C3 scenario (for 0.2, more than any single
lot holds). -/
def c3orderA : LimitOrder :=
  { id := "LO_1", symbol := "BTCUSDT", action := Action.SELL, quantity := 0.2,
    limitPrice := 55000, timestamp := 0, strategy := "TEST" }

/-- Second resting SELL order of the C3 scenario (for 0.1, covered by one lot). -/
def c3orderB : LimitOrder :=
  { id := "LO_2", symbol := "BTCUSDT", action := Action.SELL, quantity := 0.1,
    limitPrice := 55000, timestamp := 0, strategy := "TEST" }

/-- One 0.15 lot of the C3 scenario. -/
def c3lot : Position :=
  { symbol := "BTCUSDT", entryPrice := 10000, quantity := 0.15, timestamp := 0, strategy := "TEST" }

/-- C3 scenario: buy two 0.15 lots, rest the two SELL orders, then tick the
price to 55000, triggering both; the first fails (no single lot covers 0.2),
the second succeeds. -/
def c3ops : List EngineOp :=
  [ EngineOp.submit 0
      { symbol := "BTCUSDT", action := Action.BUY, price := 10000, quantity := 0.15,
        strategy := "TEST", timestamp := 0, orderType := OrderType.MARKET, limitPrice := none },
    EngineOp.submit 0
      { symbol := "BTCUSDT", action := Action.BUY, price := 10000, quantity := 0.15,
        strategy := "TEST", timestamp := 0, orderType := OrderType.MARKET, limitPrice := none },
    EngineOp.submit 0
      { symbol := "BTCUSDT", action := Action.SELL, price := 10000, quantity := 0.2,
        strategy := "TEST", timestamp := 0, orderType := OrderType.LIMIT, limitPrice := some 55000 },
    EngineOp.submit 0
      { symbol := "BTCUSDT", action := Action.SELL, price := 10000, quantity := 0.1,
        strategy := "TEST", timestamp := 0, orderType := OrderType.LIMIT, limitPrice := some 55000 },
    EngineOp.priceUpdate "BTCUSDT" 55000 0 ]

/-- The C3 trade record of one market lot purchase. -/
def c3buyTrade : Trade := marketTradeRecord 0.1 "BTCUSDT" Action.BUY 10000 0.15 0 "TEST"

/-- C3 state after the two lot purchases. -/
def c3state2 : SystemState :=
  { portfolio := { balance := 6997, positions := [c3lot, c3lot], trades := [c3buyTrade, c3buyTrade],
                   pendingLimitOrders := [] },
    commission := 0.1, orderIdCounter := 0 }

/-- C3 state after both SELL orders are resting. -/
def c3state4 : SystemState :=
  { portfolio := { balance := 6997, positions := [c3lot, c3lot], trades := [c3buyTrade, c3buyTrade],
                   pendingLimitOrders := [c3orderA, c3orderB] },
    commission := 0.1, orderIdCounter := 2 }

/-- C3 final state: order B executed (0.1 sold out of the first lot), order A
still pending. -/
def c3final : SystemState :=
  { portfolio :=
      { balance := 12491.5,
        positions := [{ c3lot with quantity := 0.05 }, c3lot],
        trades := [c3buyTrade, c3buyTrade, limitTradeRecord 0.1 55000 0 c3orderB],
        pendingLimitOrders := [c3orderA] },
    commission := 0.1, orderIdCounter := 2 }

/-- C3 counterexample: at the 55000 tick both resting SELL orders are
triggered; the first one's execution fails, yet it is NOT dropped from
`pendingLimitOrders` — it stays pending — while the scan does continue and
executes the second order (three trades in total). -/
theorem claim3_counterexample :
    ((runOps (mkSystem 10000 0.1) c3ops).portfolio.pendingLimitOrders.map fun o => o.id) = ["LO_1"] ∧
    ((runOps (mkSystem 10000 0.1) c3ops).portfolio.pendingLimitOrders.all
      (shouldExecuteOrder "BTCUSDT" 55000)) = true ∧
    (runOps (mkSystem 10000 0.1) c3ops).portfolio.trades.length = 3 := by
  have h1 : applyOp (mkSystem 10000 0.1) (c3ops.get ⟨0, by norm_num [c3ops]⟩) =
      { portfolio := { balance := 8498.5, positions := [c3lot], trades := [c3buyTrade],
                       pendingLimitOrders := [] },
        commission := 0.1, orderIdCounter := 0 } := by
    norm_num [applyOp, c3ops, executeTrade, executeMarketOrder, checkAndExecuteLimitOrders,
      shouldExecuteOrder, mkSystem, c3lot, c3buyTrade, marketTradeRecord, buyEqSellFalse]
  have h2 : applyOp
      { portfolio := { balance := 8498.5, positions := [c3lot], trades := [c3buyTrade],
                       pendingLimitOrders := [] },
        commission := 0.1, orderIdCounter := 0 } (c3ops.get ⟨1, by norm_num [c3ops]⟩) =
      c3state2 := by
    norm_num [applyOp, c3ops, executeTrade, executeMarketOrder, checkAndExecuteLimitOrders,
      shouldExecuteOrder, c3state2, c3lot, c3buyTrade, marketTradeRecord, buyEqSellFalse]
  have h3 : applyOp c3state2 (c3ops.get ⟨2, by norm_num [c3ops]⟩) =
      { c3state2 with
        portfolio := { c3state2.portfolio with pendingLimitOrders := [c3orderA] },
        orderIdCounter := 1 } := by
    norm_num [applyOp, c3ops, executeTrade, createLimitOrder, totalAvailableQuantity,
      pendingSellQuantity, generateOrderId, c3state2, c3lot, c3orderA, sellEqBuyFalse]
    rfl
  have h4 : applyOp
      { c3state2 with
        portfolio := { c3state2.portfolio with pendingLimitOrders := [c3orderA] },
        orderIdCounter := 1 } (c3ops.get ⟨3, by norm_num [c3ops]⟩) = c3state4 := by
    norm_num [applyOp, c3ops, executeTrade, createLimitOrder, totalAvailableQuantity,
      pendingSellQuantity, generateOrderId, c3state2, c3state4, c3lot, c3orderA, c3orderB,
      sellEqBuyFalse]
    rfl
  have h5 : applyOp c3state4 (c3ops.get ⟨4, by norm_num [c3ops]⟩) = c3final := by
    norm_num [applyOp, c3ops, updateMarketPrice, checkAndExecuteLimitOrders, shouldExecuteOrder,
      executeOrdersStep, executeLimitOrder, executeMarketOrder, sellMatches, markLastTradeLimit,
      c3state4, c3final, c3lot, c3orderA, c3orderB, c3buyTrade, marketTradeRecord,
      limitTradeRecord, buyEqSellFalse, sellEqBuyFalse]
    rfl
  have hrun : runOps (mkSystem 10000 0.1) c3ops = c3final := by
    have hc : c3ops = [c3ops.get ⟨0, by norm_num [c3ops]⟩, c3ops.get ⟨1, by norm_num [c3ops]⟩,
        c3ops.get ⟨2, by norm_num [c3ops]⟩, c3ops.get ⟨3, by norm_num [c3ops]⟩,
        c3ops.get ⟨4, by norm_num [c3ops]⟩] := rfl
    rw [runOps, hc, List.foldl_cons, List.foldl_cons, List.foldl_cons, List.foldl_cons,
      List.foldl_cons, List.foldl_nil, h1, h2, h3, h4, h5]
  rw [hrun]
  refine ⟨by norm_num [c3final, c3orderA], ?_, by norm_num [c3final]⟩
  norm_num [c3final, c3orderA, shouldExecuteOrder]

/-- C3 (amended): during limit-order resolution an individual execution
failure is absorbed: the failing step leaves the portfolio exactly as it was —
in particular the failing order REMAINS in `pendingLimitOrders` (it is not
dropped) — and the scan continues with the remaining triggered orders; no
error propagates to the caller. -/
theorem claim3_theorem :
    (∀ (rate currentPrice : ℚ) (now : ℤ) (p : Portfolio) (order : LimitOrder) (e : TradeError),
      executeLimitOrder rate order currentPrice now p = Except.error e →
      executeOrdersStep rate currentPrice now p order = p) ∧
    (∀ (rate currentPrice : ℚ) (now : ℤ) (p : Portfolio) (order : LimitOrder)
        (rest : List LimitOrder) (e : TradeError),
      executeLimitOrder rate order currentPrice now p = Except.error e →
      (order :: rest).foldl (executeOrdersStep rate currentPrice now) p =
        rest.foldl (executeOrdersStep rate currentPrice now) p) := by
  have hstep : ∀ (rate currentPrice : ℚ) (now : ℤ) (p : Portfolio) (order : LimitOrder)
      (e : TradeError), executeLimitOrder rate order currentPrice now p = Except.error e →
      executeOrdersStep rate currentPrice now p order = p := by
    intro rate currentPrice now p order e h
    simp [executeOrdersStep, h]
  refine ⟨hstep, ?_⟩
  intro rate currentPrice now p order rest e h
  rw [List.foldl_cons, hstep rate currentPrice now p order e h]

/-- C3 witness: instantiated on a portfolio with no positions, where the
triggered SELL order's execution fails. -/
theorem claim3_witness :
    executeLimitOrder 0.1 c3orderA 55000 0
        { balance := 0, positions := [], trades := [], pendingLimitOrders := [c3orderA] } =
      Except.error TradeError.noMatchingPosition ∧
    executeOrdersStep 0.1 55000 0
        { balance := 0, positions := [], trades := [], pendingLimitOrders := [c3orderA] } c3orderA =
      { balance := 0, positions := [], trades := [], pendingLimitOrders := [c3orderA] } ∧
    ([c3orderA].foldl (executeOrdersStep 0.1 55000 0)
        { balance := 0, positions := [], trades := [], pendingLimitOrders := [c3orderA] } =
      ([] : List LimitOrder).foldl (executeOrdersStep 0.1 55000 0)
        { balance := 0, positions := [], trades := [], pendingLimitOrders := [c3orderA] }) := by
  have herr : executeLimitOrder 0.1 c3orderA 55000 0
      { balance := 0, positions := [], trades := [], pendingLimitOrders := [c3orderA] } =
      Except.error TradeError.noMatchingPosition := by
    norm_num [executeLimitOrder, executeMarketOrder, c3orderA]
  exact ⟨herr,
    claim3_theorem.1 0.1 55000 0 _ c3orderA TradeError.noMatchingPosition herr,
    claim3_theorem.2 0.1 55000 0 _ c3orderA [] TradeError.noMatchingPosition herr⟩

/-! ### Claim C5: solvency of reachable states -/

/-- The solvency invariant: non-negative balance, and every pending order has
positive quantity. -/
def PortfolioInv (p : Portfolio) : Prop :=
  0 ≤ p.balance ∧ ∀ o ∈ p.pendingLimitOrders, 0 < o.quantity

/-- Sanity of an externally supplied operation: submitted orders carry a
positive quantity and a non-negative price, and price ticks are non-negative.
(The upstream webhook validator only checks that these fields are numbers, so
the engine itself can receive operations violating this.) -/
def WellFormedOp : EngineOp → Prop
  | EngineOp.submit _ req => 0 < req.quantity ∧ 0 ≤ req.price
  | EngineOp.priceUpdate _ price _ => 0 ≤ price
  | EngineOp.cancelOp _ => True

theorem executeMarketOrder_nonneg (rate price quantity : ℚ) (symbol strategy : String)
    (action : Action) (timestamp : ℤ) (p p2 : Portfolio)
    (hbal : 0 ≤ p.balance) (hpr : 0 ≤ price) (hq : 0 ≤ quantity)
    (_hr0 : 0 ≤ rate) (hr1 : rate ≤ 100)
    (h : executeMarketOrder rate symbol action price quantity strategy timestamp p = Except.ok p2) :
    0 ≤ p2.balance := by
  have hb := executeMarketOrder_ok_balance rate price quantity symbol strategy action
    timestamp p p2 h
  cases action with
  | BUY =>
    obtain ⟨heq, hle⟩ := hb.1 rfl
    rw [heq]
    linarith
  | SELL =>
    rw [hb.2 rfl]
    nlinarith [mul_nonneg (mul_nonneg hpr hq) (show (0:ℚ) ≤ 1 - rate / 100 by linarith)]

theorem executeLimitOrder_inv (rate currentPrice : ℚ) (now : ℤ) (order : LimitOrder)
    (p p2 : Portfolio) (hbal : 0 ≤ p.balance) (hpr : 0 ≤ currentPrice)
    (hq : 0 ≤ order.quantity) (hr0 : 0 ≤ rate) (hr1 : rate ≤ 100)
    (h : executeLimitOrder rate order currentPrice now p = Except.ok p2) :
    0 ≤ p2.balance ∧ p2.pendingLimitOrders = p.pendingLimitOrders := by
  unfold executeLimitOrder at h
  cases hm : executeMarketOrder rate order.symbol order.action currentPrice order.quantity
      order.strategy now p with
  | error e => rw [hm] at h; exact absurd h (by simp)
  | ok pm =>
    rw [hm] at h
    simp only [Except.ok.injEq] at h
    subst h
    exact ⟨executeMarketOrder_nonneg rate currentPrice order.quantity order.symbol
        order.strategy order.action now p pm hbal hpr hq hr0 hr1 hm,
      (executeMarketOrder_ok_frame rate currentPrice order.quantity order.symbol
        order.strategy order.action now p pm hm).1⟩

theorem executeOrdersStep_inv (rate currentPrice : ℚ) (now : ℤ) (order : LimitOrder)
    (p : Portfolio) (hpr : 0 ≤ currentPrice) (hr0 : 0 ≤ rate) (hr1 : rate ≤ 100)
    (hq : 0 < order.quantity) (hp : PortfolioInv p) :
    PortfolioInv (executeOrdersStep rate currentPrice now p order) := by
  cases hel : executeLimitOrder rate order currentPrice now p with
  | error e => simpa [executeOrdersStep, hel] using hp
  | ok p2 =>
    have hi := executeLimitOrder_inv rate currentPrice now order p p2 hp.1 hpr
      (le_of_lt hq) hr0 hr1 hel
    refine ⟨by simpa [executeOrdersStep, hel] using hi.1, ?_⟩
    intro o ho
    simp only [executeOrdersStep, hel] at ho
    rw [hi.2] at ho
    exact hp.2 o (List.mem_of_mem_filter ho)

theorem foldExec_inv (rate currentPrice : ℚ) (now : ℤ)
    (hpr : 0 ≤ currentPrice) (hr0 : 0 ≤ rate) (hr1 : rate ≤ 100) :
    ∀ (cands : List LimitOrder) (p : Portfolio),
      (∀ o ∈ cands, 0 < o.quantity) → PortfolioInv p →
      PortfolioInv (cands.foldl (executeOrdersStep rate currentPrice now) p) := by
  intro cands
  induction cands with
  | nil => intro p _ hp; simpa using hp
  | cons o rest ih =>
    intro p hc hp
    rw [List.foldl_cons]
    exact ih (executeOrdersStep rate currentPrice now p o)
      (fun x hx => hc x (List.mem_cons_of_mem o hx))
      (executeOrdersStep_inv rate currentPrice now o p hpr hr0 hr1
        (hc o (List.mem_cons_self o rest)) hp)

theorem checkAndExecuteLimitOrders_inv (rate currentPrice : ℚ) (symbol : String) (now : ℤ)
    (p : Portfolio) (hpr : 0 ≤ currentPrice) (hr0 : 0 ≤ rate) (hr1 : rate ≤ 100)
    (hp : PortfolioInv p) :
    PortfolioInv (checkAndExecuteLimitOrders rate symbol currentPrice now p) := by
  unfold checkAndExecuteLimitOrders
  exact foldExec_inv rate currentPrice now hpr hr0 hr1 _ p
    (fun o ho => hp.2 o (List.mem_of_mem_filter ho)) hp

theorem executeTrade_limit_none (now : ℤ) (req : TradeRequest) (s : SystemState)
    (hot : req.orderType = OrderType.LIMIT) (hlp : req.limitPrice = none) :
    executeTrade now req s = Except.error TradeError.limitPriceRequired := by
  unfold executeTrade
  rw [hot, hlp]

theorem executeTrade_limit_some (now : ℤ) (req : TradeRequest) (s : SystemState) (lp : ℚ)
    (hot : req.orderType = OrderType.LIMIT) (hlp : req.limitPrice = some lp) :
    executeTrade now req s =
      if lp = 0 then Except.error TradeError.limitPriceRequired
      else createLimitOrder req.symbol req.action req.quantity lp req.timestamp req.strategy s := by
  unfold executeTrade
  rw [hot, hlp]

theorem executeTrade_market_err (now : ℤ) (req : TradeRequest) (s : SystemState) (e : TradeError)
    (hot : req.orderType = OrderType.MARKET)
    (hm : executeMarketOrder s.commission req.symbol req.action req.price req.quantity
      req.strategy req.timestamp s.portfolio = Except.error e) :
    executeTrade now req s = Except.error e := by
  unfold executeTrade
  rw [hot, hm]

theorem executeTrade_market_ok (now : ℤ) (req : TradeRequest) (s : SystemState) (p2 : Portfolio)
    (hot : req.orderType = OrderType.MARKET)
    (hm : executeMarketOrder s.commission req.symbol req.action req.price req.quantity
      req.strategy req.timestamp s.portfolio = Except.ok p2) :
    executeTrade now req s =
      Except.ok { s with
        portfolio := checkAndExecuteLimitOrders s.commission req.symbol req.price now p2 } := by
  unfold executeTrade
  rw [hot, hm]

theorem createLimitOrder_ok_shape (symbol : String) (action : Action) (quantity limitPrice : ℚ)
    (timestamp : ℤ) (strategy : String) (s s2 : SystemState)
    (h : createLimitOrder symbol action quantity limitPrice timestamp strategy s = Except.ok s2) :
    s2 = { s with
      portfolio := { s.portfolio with
        pendingLimitOrders := s.portfolio.pendingLimitOrders ++
          [{ id := generateOrderId (s.orderIdCounter + 1), symbol := symbol, action := action,
             quantity := quantity, limitPrice := limitPrice, timestamp := timestamp,
             strategy := strategy }] },
      orderIdCounter := s.orderIdCounter + 1 } := by
  simp only [createLimitOrder] at h
  by_cases h1 : action = Action.BUY ∧
      s.portfolio.balance < limitPrice * quantity + limitPrice * quantity * (s.commission / 100)
  · rw [if_pos h1] at h
    exact absurd h (by simp)
  · rw [if_neg h1] at h
    by_cases h2 : action = Action.SELL ∧
        totalAvailableQuantity symbol s.portfolio.positions <
          quantity + pendingSellQuantity symbol s.portfolio.pendingLimitOrders
    · rw [if_pos h2] at h
      exact absurd h (by simp)
    · rw [if_neg h2] at h
      simp only [Except.ok.injEq] at h
      exact h.symm

theorem executeTrade_inv (now : ℤ) (req : TradeRequest) (s s2 : SystemState)
    (hr0 : 0 ≤ s.commission) (hr1 : s.commission ≤ 100)
    (hq : 0 < req.quantity) (hpr : 0 ≤ req.price)
    (hs : PortfolioInv s.portfolio)
    (h : executeTrade now req s = Except.ok s2) :
    PortfolioInv s2.portfolio ∧ s2.commission = s.commission := by
  cases hot : req.orderType with
  | LIMIT =>
    cases hlp : req.limitPrice with
    | none =>
      rw [executeTrade_limit_none now req s hot hlp] at h
      exact absurd h (by simp)
    | some lp =>
      rw [executeTrade_limit_some now req s lp hot hlp] at h
      by_cases hz : lp = 0
      · rw [if_pos hz] at h; exact absurd h (by simp)
      · rw [if_neg hz] at h
        have hshape := createLimitOrder_ok_shape req.symbol req.action req.quantity lp
          req.timestamp req.strategy s s2 h
        subst hshape
        refine ⟨⟨hs.1, ?_⟩, rfl⟩
        intro o ho
        rcases List.mem_append.mp ho with hmem | hmem
        · exact hs.2 o hmem
        · rw [List.mem_singleton.mp hmem]
          exact hq
  | MARKET =>
    cases hm : executeMarketOrder s.commission req.symbol req.action req.price req.quantity
        req.strategy req.timestamp s.portfolio with
    | error e =>
      rw [executeTrade_market_err now req s e hot hm] at h
      exact absurd h (by simp)
    | ok p2 =>
      rw [executeTrade_market_ok now req s p2 hot hm] at h
      simp only [Except.ok.injEq] at h
      subst h
      have hframe := executeMarketOrder_ok_frame s.commission req.price req.quantity req.symbol
        req.strategy req.action req.timestamp s.portfolio p2 hm
      have hp2 : PortfolioInv p2 := by
        refine ⟨executeMarketOrder_nonneg s.commission req.price req.quantity req.symbol
          req.strategy req.action req.timestamp s.portfolio p2 hs.1 hpr (le_of_lt hq)
          hr0 hr1 hm, ?_⟩
        rw [hframe.1]
        exact hs.2
      exact ⟨checkAndExecuteLimitOrders_inv s.commission req.price req.symbol now p2
        hpr hr0 hr1 hp2, rfl⟩

theorem applyOp_inv (s : SystemState) (op : EngineOp)
    (hr0 : 0 ≤ s.commission) (hr1 : s.commission ≤ 100)
    (hop : WellFormedOp op) (hs : PortfolioInv s.portfolio) :
    PortfolioInv (applyOp s op).portfolio ∧ (applyOp s op).commission = s.commission := by
  cases op with
  | submit now req =>
    cases hex : executeTrade now req s with
    | error e => simp only [applyOp, hex]; exact ⟨hs, trivial⟩
    | ok s2 =>
      simp only [applyOp, hex]
      exact executeTrade_inv now req s s2 hr0 hr1 hop.1 hop.2 hs hex
  | priceUpdate symbol price now =>
    refine ⟨?_, rfl⟩
    exact checkAndExecuteLimitOrders_inv s.commission price symbol now s.portfolio hop hr0 hr1 hs
  | cancelOp orderId =>
    refine ⟨?_, rfl⟩
    show PortfolioInv (cancelLimitOrder orderId s.portfolio).2
    unfold cancelLimitOrder
    cases hf : s.portfolio.pendingLimitOrders.findIdx? (fun order => order.id == orderId) with
    | none => exact hs
    | some i =>
      refine ⟨hs.1, ?_⟩
      intro o ho
      exact hs.2 o (List.eraseIdx_subset _ i ho)

theorem runOps_inv : ∀ (ops : List EngineOp) (s : SystemState),
    0 ≤ s.commission → s.commission ≤ 100 → (∀ op ∈ ops, WellFormedOp op) →
    PortfolioInv s.portfolio → PortfolioInv (runOps s ops).portfolio := by
  intro ops
  induction ops with
  | nil => intro s _ _ _ hs; simpa [runOps] using hs
  | cons op rest ih =>
    intro s h0 h1 hops hs
    have hstep := applyOp_inv s op h0 h1 (hops op (List.mem_cons_self op rest)) hs
    have : runOps s (op :: rest) = runOps (applyOp s op) rest := by
      simp [runOps]
    rw [this]
    exact ih (applyOp s op) (hstep.2 ▸ h0) (hstep.2 ▸ h1)
      (fun o ho => hops o (List.mem_cons_of_mem op ho)) hstep.1

/-- The C5 scenario: buy one unit, then submit a market SELL with the
(unvalidated) quantity −200. -/
def c5ops : List EngineOp :=
  [ EngineOp.submit 0
      { symbol := "S", action := Action.BUY, price := 100, quantity := 1,
        strategy := "T", timestamp := 0, orderType := OrderType.MARKET, limitPrice := none },
    EngineOp.submit 0
      { symbol := "S", action := Action.SELL, price := 100, quantity := -200,
        strategy := "T", timestamp := 0, orderType := OrderType.MARKET, limitPrice := none } ]

/-- C5 counterexample: because the engine has no quantity validation, a market
SELL with a negative quantity is reachable from a fresh account and drives the
balance to −10080.1 < 0. -/
theorem claim5_counterexample :
    (runOps (mkSystem 10000 0.1) c5ops).portfolio.balance < 0 := by
  have h1 : applyOp (mkSystem 10000 0.1) (c5ops.get ⟨0, by norm_num [c5ops]⟩) =
      { portfolio :=
          { balance := 9899.9,
            positions := [{ symbol := "S", entryPrice := 100, quantity := 1,
                            timestamp := 0, strategy := "T" }],
            trades := [marketTradeRecord 0.1 "S" Action.BUY 100 1 0 "T"],
            pendingLimitOrders := [] },
        commission := 0.1, orderIdCounter := 0 } := by
    norm_num [applyOp, c5ops, executeTrade, executeMarketOrder, checkAndExecuteLimitOrders,
      shouldExecuteOrder, mkSystem, marketTradeRecord, buyEqSellFalse]
  have h2 : applyOp
      { portfolio :=
          { balance := 9899.9,
            positions := [{ symbol := "S", entryPrice := 100, quantity := 1,
                            timestamp := 0, strategy := "T" }],
            trades := [marketTradeRecord 0.1 "S" Action.BUY 100 1 0 "T"],
            pendingLimitOrders := [] },
        commission := 0.1, orderIdCounter := 0 } (c5ops.get ⟨1, by norm_num [c5ops]⟩) =
      { portfolio :=
          { balance := -10080.1,
            positions := [{ symbol := "S", entryPrice := 100, quantity := 201,
                            timestamp := 0, strategy := "T" }],
            trades := [marketTradeRecord 0.1 "S" Action.BUY 100 1 0 "T",
                       marketTradeRecord 0.1 "S" Action.SELL 100 (-200) 0 "T"],
            pendingLimitOrders := [] },
        commission := 0.1, orderIdCounter := 0 } := by
    norm_num [applyOp, c5ops, executeTrade, executeMarketOrder, checkAndExecuteLimitOrders,
      shouldExecuteOrder, sellMatches, marketTradeRecord, sellEqBuyFalse]
  have hrun : runOps (mkSystem 10000 0.1) c5ops =
      { portfolio :=
          { balance := -10080.1,
            positions := [{ symbol := "S", entryPrice := 100, quantity := 201,
                            timestamp := 0, strategy := "T" }],
            trades := [marketTradeRecord 0.1 "S" Action.BUY 100 1 0 "T",
                       marketTradeRecord 0.1 "S" Action.SELL 100 (-200) 0 "T"],
            pendingLimitOrders := [] },
        commission := 0.1, orderIdCounter := 0 } := by
    have hc : c5ops = [c5ops.get ⟨0, by norm_num [c5ops]⟩, c5ops.get ⟨1, by norm_num [c5ops]⟩] := rfl
    rw [runOps, hc, List.foldl_cons, List.foldl_cons, List.foldl_nil, h1, h2]
  rw [hrun]
  norm_num

/-- C5 (amended): as long as every submitted order has a positive quantity and
a non-negative price and every price tick is non-negative (and the commission
rate is between 0 and 100 percent), the balance stays ≥ 0 in every reachable
state: rejected operations leave it unchanged and successful ones preserve
non-negativity. Without the quantity/price restriction this fails (see the
counterexample), because the engine never validates them. -/
theorem claim5_theorem (initialBalance rate : ℚ) (ops : List EngineOp)
    (h0 : 0 ≤ initialBalance) (hr0 : 0 ≤ rate) (hr1 : rate ≤ 100)
    (hops : ∀ op ∈ ops, WellFormedOp op) :
    0 ≤ (runOps (mkSystem initialBalance rate) ops).portfolio.balance :=
  (runOps_inv ops (mkSystem initialBalance rate) hr0 hr1 hops
    ⟨h0, by simp [mkSystem]⟩).1

/-- C5 witness: the amended statement instantiated on a two-operation
well-formed run. -/
theorem claim5_witness :
    (0 : ℚ) ≤ 10000 ∧ (0 : ℚ) ≤ 0.1 ∧ (0.1 : ℚ) ≤ 100 ∧
    (∀ op ∈ [ EngineOp.submit 0
        { symbol := "BTCUSDT", action := Action.BUY, price := 50000, quantity := 0.1,
          strategy := "TEST", timestamp := 0, orderType := OrderType.MARKET, limitPrice := none },
      EngineOp.priceUpdate "BTCUSDT" 48000 0 ], WellFormedOp op) ∧
    0 ≤ (runOps (mkSystem 10000 0.1)
      [ EngineOp.submit 0
          { symbol := "BTCUSDT", action := Action.BUY, price := 50000, quantity := 0.1,
            strategy := "TEST", timestamp := 0, orderType := OrderType.MARKET, limitPrice := none },
        EngineOp.priceUpdate "BTCUSDT" 48000 0 ]).portfolio.balance :=
  ⟨by norm_num, by norm_num, by norm_num,
    by
      intro op hop
      rcases List.mem_cons.mp hop with h | h
      · subst h; exact ⟨by norm_num, by norm_num⟩
      · rw [List.mem_singleton.mp h]; show (0:ℚ) ≤ 48000; norm_num,
    claim5_theorem 10000 0.1 _ (by norm_num) (by norm_num) (by norm_num)
      (by
        intro op hop
        rcases List.mem_cons.mp hop with h | h
        · subst h; exact ⟨by norm_num, by norm_num⟩
        · rw [List.mem_singleton.mp h]; show (0:ℚ) ≤ 48000; norm_num)⟩

theorem cancelLimitOrder_frame (orderId : String) (p : Portfolio) :
    (cancelLimitOrder orderId p).2.balance = p.balance ∧
    (cancelLimitOrder orderId p).2.positions = p.positions ∧
    (cancelLimitOrder orderId p).2.trades = p.trades := by
  unfold cancelLimitOrder
  rcases hf : p.pendingLimitOrders.findIdx? (fun order => order.id == orderId) with _ | i <;>
    rw [hf] <;> exact ⟨rfl, rfl, rfl⟩

theorem cancelLimitOrder_found (orderId : String) (p : Portfolio)
    (hex : ∃ o ∈ p.pendingLimitOrders, o.id = orderId) :
    (cancelLimitOrder orderId p).1 = true := by
  unfold cancelLimitOrder
  rcases hf : p.pendingLimitOrders.findIdx? (fun order => order.id == orderId) with _ | i
  · exfalso
    obtain ⟨o, ho, hid⟩ := hex
    have := List.findIdx?_eq_none_iff.mp hf o ho
    simp [hid] at this
  · rw [hf]

/-! ### Claim C6: LIMIT_BUY submission followed by immediate cancellation -/

/-- C6: submitting a LIMIT_BUY that succeeds and immediately cancelling the
created order (whose id is `generateOrderId (orderIdCounter + 1)`) reports a
successful cancellation and leaves balance, positions and trades exactly at
their pre-submission values. (Both steps are in fact no-ops on those three
fields: creation only checks the balance, cancellation only removes the
pending entry.) -/
theorem claim6_theorem (now ts : ℤ) (sym strat : String) (pr q lp : ℚ) (s s2 : SystemState)
    (h : executeTrade now
      { symbol := sym, action := Action.BUY, price := pr, quantity := q, strategy := strat,
        timestamp := ts, orderType := OrderType.LIMIT, limitPrice := some lp } s =
      Except.ok s2) :
    (cancelLimitOrder (generateOrderId (s.orderIdCounter + 1)) s2.portfolio).1 = true ∧
    (cancelLimitOrder (generateOrderId (s.orderIdCounter + 1)) s2.portfolio).2.balance =
      s.portfolio.balance ∧
    (cancelLimitOrder (generateOrderId (s.orderIdCounter + 1)) s2.portfolio).2.positions =
      s.portfolio.positions ∧
    (cancelLimitOrder (generateOrderId (s.orderIdCounter + 1)) s2.portfolio).2.trades =
      s.portfolio.trades := by
  rw [executeTrade_limit_some now _ s lp rfl rfl] at h
  by_cases hz : lp = 0
  · rw [if_pos hz] at h
    exact absurd h (by simp)
  · rw [if_neg hz] at h
    have hshape := createLimitOrder_ok_shape _ _ _ _ _ _ s s2 h
    subst hshape
    refine ⟨cancelLimitOrder_found _ _
        ⟨_, List.mem_append_right _ (List.mem_singleton_self _), rfl⟩,
      (cancelLimitOrder_frame _ _).1, (cancelLimitOrder_frame _ _).2.1,
      (cancelLimitOrder_frame _ _).2.2⟩

/-- The C6 witness submission. -/
def c6req : TradeRequest :=
  { symbol := "BTCUSDT", action := Action.BUY, price := 50000, quantity := 0.1,
    strategy := "TEST", timestamp := 0, orderType := OrderType.LIMIT, limitPrice := some 49000 }

/-- The C6 intermediate state, after the submission and before cancellation. -/
def c6mid : SystemState :=
  { portfolio :=
      { balance := 10000, positions := [], trades := [],
        pendingLimitOrders :=
          [{ id := "LO_1", symbol := "BTCUSDT", action := Action.BUY, quantity := 0.1,
             limitPrice := 49000, timestamp := 0, strategy := "TEST" }] },
    commission := 0.1, orderIdCounter := 1 }

/-- C6 witness: the round trip on a fresh account. -/
theorem claim6_witness :
    executeTrade 0 c6req (mkSystem 10000 0.1) = Except.ok c6mid ∧
    (cancelLimitOrder (generateOrderId ((mkSystem 10000 0.1).orderIdCounter + 1)) c6mid.portfolio).1 = true ∧
    (cancelLimitOrder (generateOrderId ((mkSystem 10000 0.1).orderIdCounter + 1)) c6mid.portfolio).2.balance =
      (mkSystem 10000 0.1).portfolio.balance ∧
    (cancelLimitOrder (generateOrderId ((mkSystem 10000 0.1).orderIdCounter + 1)) c6mid.portfolio).2.positions =
      (mkSystem 10000 0.1).portfolio.positions ∧
    (cancelLimitOrder (generateOrderId ((mkSystem 10000 0.1).orderIdCounter + 1)) c6mid.portfolio).2.trades =
      (mkSystem 10000 0.1).portfolio.trades := by
  have h : executeTrade 0 c6req (mkSystem 10000 0.1) = Except.ok c6mid := by
    norm_num [executeTrade, c6req, mkSystem, createLimitOrder, totalAvailableQuantity,
      pendingSellQuantity, generateOrderId, c6mid, buyEqSellFalse]
    rfl
  have h2 : executeTrade 0
      { symbol := "BTCUSDT", action := Action.BUY, price := 50000, quantity := 0.1,
        strategy := "TEST", timestamp := 0, orderType := OrderType.LIMIT,
        limitPrice := some 49000 } (mkSystem 10000 0.1) = Except.ok c6mid := h
  have hc := claim6_theorem 0 0 "BTCUSDT" "TEST" 50000 0.1 49000 (mkSystem 10000 0.1) c6mid h2
  exact ⟨h, hc.1, hc.2.1, hc.2.2.1, hc.2.2.2⟩

/-! ### Claim C7: market SELL matching semantics -/

/-- Two 0.06 lots of the same symbol: in aggregate they cover a 0.1 sell, but
no single lot does. -/
def c7lots : List Position :=
  [{ symbol := "BTCUSDT", entryPrice := 50000, quantity := 0.06, timestamp := 0, strategy := "TEST" },
   { symbol := "BTCUSDT", entryPrice := 50000, quantity := 0.06, timestamp := 0, strategy := "TEST" }]

/-- C7: a market SELL matches the FIRST position (in insertion order) whose
symbol matches and whose quantity covers the request; an exact match is
removed, a larger one decremented in place, and the proceeds net of commission
are credited. If no single position suffices the sell fails with
`NoMatchingPosition` and the state is unchanged — even when the aggregate over
several lots would cover the request, as the concrete two-lot instance shows. -/
theorem claim7_theorem (rate price quantity : ℚ) (symbol strategy : String) (ts : ℤ)
    (p : Portfolio) :
    (∀ (i : ℕ) (hi : i < p.positions.length),
      sellMatches symbol quantity (p.positions.get ⟨i, hi⟩) = true →
      (∀ (j : ℕ) (hj : j < i),
        sellMatches symbol quantity (p.positions.get ⟨j, Nat.lt_trans hj hi⟩) = false) →
      executeMarketOrder rate symbol Action.SELL price quantity strategy ts p =
        Except.ok
          { p with
            balance := p.balance + (price * quantity - price * quantity * (rate / 100)),
            positions :=
              if (p.positions.get ⟨i, hi⟩).quantity = quantity then p.positions.eraseIdx i
              else p.positions.set i
                { p.positions.get ⟨i, hi⟩ with
                  quantity := (p.positions.get ⟨i, hi⟩).quantity - quantity },
            trades := p.trades ++
              [marketTradeRecord rate symbol Action.SELL price quantity ts strategy] }) ∧
    ((∀ pos ∈ p.positions, sellMatches symbol quantity pos = false) →
      executeMarketOrder rate symbol Action.SELL price quantity strategy ts p =
        Except.error TradeError.noMatchingPosition) ∧
    (totalAvailableQuantity "BTCUSDT" c7lots = 0.12 ∧
      executeMarketOrder 0.1 "BTCUSDT" Action.SELL 50000 0.1 "TEST" 0
        { balance := 0, positions := c7lots, trades := [], pendingLimitOrders := [] } =
      Except.error TradeError.noMatchingPosition) := by
  refine ⟨?_, ?_, by norm_num [totalAvailableQuantity, c7lots],
    by norm_num [executeMarketOrder, sellMatches, c7lots]⟩
  · intro i hi hmatch hfirst
    have hfind : p.positions.findIdx? (sellMatches symbol quantity) = some i := by
      rw [List.findIdx?_eq_some_iff_getElem]
      refine ⟨hi, by simpa using hmatch, ?_⟩
      intro j hj
      have := hfirst j hj
      simp only [List.get_eq_getElem] at this
      simp [this]
    rw [executeMarketOrder_sell_some rate price quantity symbol strategy ts p i hfind]
    have hg : p.positions.getD i default = p.positions.get ⟨i, hi⟩ := by
      simp [List.getD_eq_getElem?_getD, List.getElem?_eq_getElem hi]
    rw [hg]
  · intro hnone
    exact executeMarketOrder_sell_none rate price quantity symbol strategy ts p
      (List.findIdx?_eq_none_iff.mpr hnone)

/-- The single 0.2 lot of the C7 witness. -/
def c7lot : Position :=
  { symbol := "BTCUSDT", entryPrice := 50000, quantity := 0.2, timestamp := 0, strategy := "TEST" }

/-- C7 witness: the first-match clause instantiated at index 0 of a one-lot
portfolio (partial sale: the lot is decremented in place). -/
theorem claim7_witness :
    sellMatches "BTCUSDT" 0.1 c7lot = true ∧
    executeMarketOrder 0.1 "BTCUSDT" Action.SELL 55000 0.1 "TEST" 0
        { balance := 4995, positions := [c7lot], trades := [], pendingLimitOrders := [] } =
      Except.ok
        { balance := 10489.5,
          positions := [{ symbol := "BTCUSDT", entryPrice := 50000, quantity := 0.1,
                          timestamp := 0, strategy := "TEST" }],
          trades := [marketTradeRecord 0.1 "BTCUSDT" Action.SELL 55000 0.1 0 "TEST"],
          pendingLimitOrders := [] } := by
  have hm : sellMatches "BTCUSDT" 0.1 (([c7lot] : List Position).get ⟨0, by norm_num⟩) = true := by
    norm_num [sellMatches, c7lot]
  have happ := (claim7_theorem 0.1 55000 0.1 "BTCUSDT" "TEST" 0
    { balance := 4995, positions := [c7lot], trades := [], pendingLimitOrders := [] }).1
    0 (by norm_num) hm (fun j hj => absurd hj (Nat.not_lt_zero j))
  refine ⟨by norm_num [sellMatches, c7lot], ?_⟩
  rw [happ]
  norm_num [c7lot]

/-! ### Claim C8: LIMIT_SELL availability check -/

theorem createLimitOrder_sell_eq (sym : String) (q lp : ℚ) (ts : ℤ) (strat : String)
    (s : SystemState) :
    createLimitOrder sym Action.SELL q lp ts strat s =
      if totalAvailableQuantity sym s.portfolio.positions <
          q + pendingSellQuantity sym s.portfolio.pendingLimitOrders then
        Except.error TradeError.insufficientPosition
      else
        Except.ok
          { s with
            portfolio := { s.portfolio with
              pendingLimitOrders := s.portfolio.pendingLimitOrders ++
                [{ id := generateOrderId (s.orderIdCounter + 1), symbol := sym,
                   action := Action.SELL, quantity := q, limitPrice := lp,
                   timestamp := ts, strategy := strat }] },
            orderIdCounter := s.orderIdCounter + 1 } := by
  simp [createLimitOrder, sellEqBuyFalse]

/-- The C8 start state: one 0.1 BTCUSDT lot, nothing pending (as reached by a
market BUY on a fresh account). -/
def c8start : SystemState :=
  { portfolio :=
      { balance := 4995,
        positions := [{ symbol := "BTCUSDT", entryPrice := 50000, quantity := 0.1,
                        timestamp := 0, strategy := "TEST" }],
        trades := [marketTradeRecord 0.1 "BTCUSDT" Action.BUY 50000 0.1 0 "TEST"],
        pendingLimitOrders := [] },
    commission := 0.1, orderIdCounter := 0 }

/-- C8 state after the first LIMIT_SELL succeeds. -/
def c8mid : SystemState :=
  { c8start with
    portfolio := { c8start.portfolio with
      pendingLimitOrders :=
        [{ id := "LO_1", symbol := "BTCUSDT", action := Action.SELL, quantity := 0.1,
           limitPrice := 55000, timestamp := 0, strategy := "TEST" }] },
    orderIdCounter := 1 }

/-- C8: a LIMIT_SELL succeeds iff the summed position quantity for the symbol
minus the already-pending SELL quantity for the symbol covers the request,
failing with `InsufficientPosition` otherwise; on success the only state
change is the appended pending order. Hence of two LIMIT_SELL orders each for
the full quantity of a single 0.1 lot, the first succeeds and the second is
rejected. -/
theorem claim8_theorem (sym strat : String) (q lp : ℚ) (ts : ℤ) (s : SystemState) :
    ((∃ s2, createLimitOrder sym Action.SELL q lp ts strat s = Except.ok s2) ↔
      q + pendingSellQuantity sym s.portfolio.pendingLimitOrders ≤
        totalAvailableQuantity sym s.portfolio.positions) ∧
    (totalAvailableQuantity sym s.portfolio.positions <
        q + pendingSellQuantity sym s.portfolio.pendingLimitOrders →
      createLimitOrder sym Action.SELL q lp ts strat s =
        Except.error TradeError.insufficientPosition) ∧
    (∀ s2, createLimitOrder sym Action.SELL q lp ts strat s = Except.ok s2 →
      s2.portfolio.balance = s.portfolio.balance ∧
      s2.portfolio.positions = s.portfolio.positions ∧
      s2.portfolio.trades = s.portfolio.trades ∧
      s2.portfolio.pendingLimitOrders = s.portfolio.pendingLimitOrders ++
        [{ id := generateOrderId (s.orderIdCounter + 1), symbol := sym, action := Action.SELL,
           quantity := q, limitPrice := lp, timestamp := ts, strategy := strat }]) ∧
    (createLimitOrder "BTCUSDT" Action.SELL 0.1 55000 0 "TEST" c8start = Except.ok c8mid ∧
      createLimitOrder "BTCUSDT" Action.SELL 0.1 55000 0 "TEST" c8mid =
        Except.error TradeError.insufficientPosition) := by
  rw [createLimitOrder_sell_eq]
  by_cases hc : totalAvailableQuantity sym s.portfolio.positions <
      q + pendingSellQuantity sym s.portfolio.pendingLimitOrders
  · rw [if_pos hc]
    refine ⟨⟨fun hex => ?_, fun hle => absurd hle (not_le.mpr hc)⟩, fun _ => rfl,
      fun s2 hs2 => absurd hs2 (by simp), ?_, ?_⟩
    · obtain ⟨s2, hs2⟩ := hex
      exact absurd hs2 (by simp)
    · rw [createLimitOrder_sell_eq]
      rw [if_neg (by norm_num [c8start, totalAvailableQuantity, pendingSellQuantity])]
      norm_num [c8start, c8mid, generateOrderId]
      rfl
    · rw [createLimitOrder_sell_eq]
      rw [if_pos (by norm_num [c8mid, c8start, totalAvailableQuantity, pendingSellQuantity])]
  · rw [if_neg hc]
    refine ⟨⟨fun _ => not_lt.mp hc, fun _ => ⟨_, rfl⟩⟩,
      fun hlt => absurd hlt hc, fun s2 hs2 => ?_, ?_, ?_⟩
    · simp only [Except.ok.injEq] at hs2
      subst hs2
      exact ⟨rfl, rfl, rfl, rfl⟩
    · rw [createLimitOrder_sell_eq]
      rw [if_neg (by norm_num [c8start, totalAvailableQuantity, pendingSellQuantity])]
      norm_num [c8start, c8mid, generateOrderId]
      rfl
    · rw [createLimitOrder_sell_eq]
      rw [if_pos (by norm_num [c8mid, c8start, totalAvailableQuantity, pendingSellQuantity])]

/-- C8 witness: the characterization instantiated on the one-lot state, using
the success direction of the iff. -/
theorem claim8_witness :
    ((0.1 : ℚ) + pendingSellQuantity "BTCUSDT" c8start.portfolio.pendingLimitOrders ≤
      totalAvailableQuantity "BTCUSDT" c8start.portfolio.positions) ∧
    (∃ s2, createLimitOrder "BTCUSDT" Action.SELL 0.1 55000 0 "TEST" c8start = Except.ok s2) := by
  have hle : (0.1 : ℚ) + pendingSellQuantity "BTCUSDT" c8start.portfolio.pendingLimitOrders ≤
      totalAvailableQuantity "BTCUSDT" c8start.portfolio.positions := by
    norm_num [c8start, totalAvailableQuantity, pendingSellQuantity]
  have hth := claim8_theorem "BTCUSDT" "TEST" 0.1 55000 0 c8start
  exact ⟨hle, hth.1.mpr hle⟩

/-! ### Claim C10: cancellation is a pure pending-order removal -/

theorem filter_eq_self_of_findIdx_none (orderId : String) (l : List LimitOrder)
    (hf : l.findIdx? (fun o => o.id == orderId) = none) :
    l.filter (fun o => !(o.id == orderId)) = l := by
  apply List.filter_eq_self.mpr
  intro a ha
  have := List.findIdx?_eq_none_iff.mp hf a ha
  simp [this]

theorem eraseIdx_findIdx_eq_filter (orderId : String) :
    ∀ (l : List LimitOrder), (l.map (fun o => o.id)).Nodup →
      ∀ i, l.findIdx? (fun o => o.id == orderId) = some i →
      l.eraseIdx i = l.filter (fun o => !(o.id == orderId)) := by
  intro l
  induction l with
  | nil => intro _ i hi; simp at hi
  | cons a t ih =>
    intro hnd i hi
    simp only [List.map_cons, List.nodup_cons] at hnd
    rw [List.findIdx?_cons] at hi
    by_cases ha : (a.id == orderId) = true
    · rw [if_pos ha] at hi
      have hi0 : i = 0 := by
        injection hi with hi2
        exact hi2.symm
      subst hi0
      have haid : a.id = orderId := by simpa using ha
      show t = (a :: t).filter (fun o => !(o.id == orderId))
      rw [List.filter_cons, if_neg (by simp [ha])]
      symm
      apply List.filter_eq_self.mpr
      intro x hx
      simp only [Bool.not_eq_eq_eq_not, Bool.not_true, beq_eq_false_iff_ne, ne_eq]
      intro hxid
      exact hnd.1 (by rw [haid, ← hxid]; exact List.mem_map_of_mem _ hx)
    · rw [if_neg ha] at hi
      rw [List.findIdx?_start_succ] at hi
      cases hj : t.findIdx? (fun o => o.id == orderId) with
      | none => rw [hj] at hi; simp at hi
      | some j =>
        rw [hj] at hi
        simp only [Option.map_some', Option.some.injEq, Nat.zero_add] at hi
        subst hi
        show a :: t.eraseIdx j = (a :: t).filter (fun o => !(o.id == orderId))
        rw [List.filter_cons, if_pos (by simp [Bool.not_eq_eq_eq_not, ha])]
        rw [ih hnd.2 j hj]

/-- C10: for every state and every `orderId`, cancellation leaves balance,
positions and trades completely unchanged; it returns true exactly when a
pending order with that id exists, and (given the ids in `pendingLimitOrders`
are pairwise distinct, as the engine's id generator guarantees) its only
effect is removing the single matching pending order. -/
theorem claim10_theorem (orderId : String) (p : Portfolio) :
    (cancelLimitOrder orderId p).2.balance = p.balance ∧
    (cancelLimitOrder orderId p).2.positions = p.positions ∧
    (cancelLimitOrder orderId p).2.trades = p.trades ∧
    ((cancelLimitOrder orderId p).1 = true ↔ ∃ o ∈ p.pendingLimitOrders, o.id = orderId) ∧
    ((p.pendingLimitOrders.map (fun o => o.id)).Nodup →
      (cancelLimitOrder orderId p).2.pendingLimitOrders =
        p.pendingLimitOrders.filter (fun o => !(o.id == orderId))) := by
  obtain ⟨hb, hpos, htr⟩ := cancelLimitOrder_frame orderId p
  refine ⟨hb, hpos, htr, ⟨?_, fun hex => cancelLimitOrder_found orderId p hex⟩, ?_⟩
  · intro htrue
    cases hf : p.pendingLimitOrders.findIdx? (fun order => order.id == orderId) with
    | none =>
      exfalso
      unfold cancelLimitOrder at htrue
      rw [hf] at htrue
      simp at htrue
    | some i =>
      have hsome : (p.pendingLimitOrders.findIdx? (fun order => order.id == orderId)).isSome = true := by
        rw [hf]; rfl
      rw [List.findIdx?_isSome] at hsome
      obtain ⟨x, hx, hpx⟩ := List.any_eq_true.mp hsome
      exact ⟨x, hx, by simpa using hpx⟩
  · intro hnd
    cases hf : p.pendingLimitOrders.findIdx? (fun order => order.id == orderId) with
    | none =>
      unfold cancelLimitOrder
      rw [hf]
      exact (filter_eq_self_of_findIdx_none orderId _ hf).symm
    | some i =>
      unfold cancelLimitOrder
      rw [hf]
      exact eraseIdx_findIdx_eq_filter orderId _ hnd i hf

/-- The C10 witness portfolio: one pending order, arbitrary ledger content. -/
def c10portfolio : Portfolio :=
  { balance := 4995,
    positions := [{ symbol := "BTCUSDT", entryPrice := 50000, quantity := 0.1,
                    timestamp := 0, strategy := "TEST" }],
    trades := [],
    pendingLimitOrders :=
      [{ id := "LO_1", symbol := "BTCUSDT", action := Action.SELL, quantity := 0.1,
         limitPrice := 55000, timestamp := 0, strategy := "TEST" }] }

/-- C10 witness: the characterization instantiated on a one-order portfolio. -/
theorem claim10_witness :
    ((c10portfolio.pendingLimitOrders.map (fun o => o.id)).Nodup) ∧
    (cancelLimitOrder "LO_1" c10portfolio).2.pendingLimitOrders =
      c10portfolio.pendingLimitOrders.filter (fun o => !(o.id == "LO_1")) ∧
    (cancelLimitOrder "LO_1" c10portfolio).1 = true ∧
    (cancelLimitOrder "LO_1" c10portfolio).2.balance = c10portfolio.balance := by
  have hnd : (c10portfolio.pendingLimitOrders.map (fun o => o.id)).Nodup := by
    simp [c10portfolio]
  have hth := claim10_theorem "LO_1" c10portfolio
  exact ⟨hnd, hth.2.2.2.2 hnd,
    (hth.2.2.2.1).mpr ⟨_, List.mem_singleton_self _, rfl⟩, hth.1⟩

/-! ### Claim C9: one resolution pass executes every triggered order in FIFO order -/

/-- The candidate executions of one resolution pass all succeed when run in
sequence (each one against the state left by its predecessors, exactly as the
execution loop runs them). -/
def allExecSucceedB (rate currentPrice : ℚ) (now : ℤ) : Portfolio → List LimitOrder → Bool
  | _, [] => true
  | p, o :: rest =>
    match executeLimitOrder rate o currentPrice now p with
    | Except.error _ => false
    | Except.ok _ =>
      allExecSucceedB rate currentPrice now (executeOrdersStep rate currentPrice now p o) rest

theorem foldExec_all_ok (rate currentPrice : ℚ) (now : ℤ) :
    ∀ (cands : List LimitOrder) (p : Portfolio),
      allExecSucceedB rate currentPrice now p cands = true →
      ((cands.foldl (executeOrdersStep rate currentPrice now) p).pendingLimitOrders =
        p.pendingLimitOrders.filter (fun q => cands.all (fun o => !(q.id == o.id)))) ∧
      ((cands.foldl (executeOrdersStep rate currentPrice now) p).trades =
        p.trades ++ cands.map (limitTradeRecord rate currentPrice now)) := by
  intro cands
  induction cands with
  | nil => intro p _; simp
  | cons o rest ih =>
    intro p hsucc
    cases hel : executeLimitOrder rate o currentPrice now p with
    | error e =>
      exfalso
      unfold allExecSucceedB at hsucc
      rw [hel] at hsucc
      simp at hsucc
    | ok p2 =>
      have hsucc2 : allExecSucceedB rate currentPrice now
          (executeOrdersStep rate currentPrice now p o) rest = true := by
        unfold allExecSucceedB at hsucc
        rw [hel] at hsucc
        exact hsucc
      have hshape := executeLimitOrder_ok_shape rate currentPrice now o p p2 hel
      have hstep : executeOrdersStep rate currentPrice now p o =
          { p2 with pendingLimitOrders :=
              p2.pendingLimitOrders.filter (fun pending => !(pending.id == o.id)) } := by
        unfold executeOrdersStep
        rw [hel]
      obtain ⟨ihp, iht⟩ := ih (executeOrdersStep rate currentPrice now p o) hsucc2
      rw [List.foldl_cons]
      constructor
      · rw [ihp, hstep]
        simp only [hshape.1, List.filter_filter, List.all_cons]
        apply List.filter_congr
        intro x _
        exact Bool.and_comm _ _
      · rw [iht, hstep]
        simp only [hshape.2, List.map_cons]
        simp [List.append_assoc]

/-- C9: in one resolution pass for a symbol at a price, assuming pending order
ids are pairwise distinct (as the id generator guarantees) and every triggered
execution succeeds, EVERY pending order for that symbol whose trigger
condition holds (BUY with `currentPrice ≤ limitPrice`, SELL with
`currentPrice ≥ limitPrice`) is executed and removed, and the appended trades
are exactly the triggered orders' trades in the order the orders appear in
`pendingLimitOrders` (FIFO) — no single-best-price selection; orders for other
symbols or with a false trigger condition remain pending. -/
theorem claim9_theorem (rate currentPrice : ℚ) (symbol : String) (now : ℤ) (p : Portfolio)
    (hids : (p.pendingLimitOrders.map (fun o => o.id)).Nodup)
    (hsucc : allExecSucceedB rate currentPrice now p
      (p.pendingLimitOrders.filter (shouldExecuteOrder symbol currentPrice)) = true) :
    (checkAndExecuteLimitOrders rate symbol currentPrice now p).pendingLimitOrders =
      p.pendingLimitOrders.filter (fun o => !(shouldExecuteOrder symbol currentPrice o)) ∧
    (checkAndExecuteLimitOrders rate symbol currentPrice now p).trades =
      p.trades ++ (p.pendingLimitOrders.filter (shouldExecuteOrder symbol currentPrice)).map
        (limitTradeRecord rate currentPrice now) := by
  obtain ⟨hp, ht⟩ := foldExec_all_ok rate currentPrice now
    (p.pendingLimitOrders.filter (shouldExecuteOrder symbol currentPrice)) p hsucc
  refine ⟨?_, ht⟩
  show (List.foldl (executeOrdersStep rate currentPrice now) p
      (p.pendingLimitOrders.filter (shouldExecuteOrder symbol currentPrice))).pendingLimitOrders = _
  rw [hp]
  apply List.filter_congr
  intro x hx
  by_cases hpred : shouldExecuteOrder symbol currentPrice x = true
  · have hxc : x ∈ p.pendingLimitOrders.filter (shouldExecuteOrder symbol currentPrice) :=
      List.mem_filter.mpr ⟨hx, hpred⟩
    have hall : (p.pendingLimitOrders.filter (shouldExecuteOrder symbol currentPrice)).all
        (fun o => !(x.id == o.id)) = false := by
      cases hallc : (p.pendingLimitOrders.filter (shouldExecuteOrder symbol currentPrice)).all
          (fun o => !(x.id == o.id)) with
      | false => rfl
      | true =>
        exfalso
        have := List.all_eq_true.mp hallc x hxc
        simp at this
    rw [hall, hpred]
    rfl
  · have hfalse : shouldExecuteOrder symbol currentPrice x = false :=
      Bool.not_eq_true _ ▸ (Bool.eq_false_iff.mpr hpred)
    have hall : (p.pendingLimitOrders.filter (shouldExecuteOrder symbol currentPrice)).all
        (fun o => !(x.id == o.id)) = true := by
      apply List.all_eq_true.mpr
      intro o ho
      obtain ⟨hom, hop⟩ := List.mem_filter.mp ho
      simp only [Bool.not_eq_eq_eq_not, Bool.not_true, beq_eq_false_iff_ne, ne_eq]
      intro hxid
      have hxy : x = o := List.inj_on_of_nodup_map hids hx hom hxid
      rw [hxy] at hpred
      exact hpred hop
    rw [hall, hfalse]
    rfl

/-- The C9 witness portfolio: three resting BUY orders — one triggered at the
45000 BTCUSDT tick, one with a lower limit price, one for another symbol. -/
def c9portfolio : Portfolio :=
  { balance := 1000, positions := [], trades := [],
    pendingLimitOrders :=
      [{ id := "LO_1", symbol := "BTCUSDT", action := Action.BUY, quantity := 0.01,
         limitPrice := 50000, timestamp := 0, strategy := "TEST" },
       { id := "LO_2", symbol := "BTCUSDT", action := Action.BUY, quantity := 0.01,
         limitPrice := 40000, timestamp := 0, strategy := "TEST" },
       { id := "LO_3", symbol := "ETHUSDT", action := Action.BUY, quantity := 0.01,
         limitPrice := 99999, timestamp := 0, strategy := "TEST" }] }

/-- C9 witness: the pass at 45000 on `c9portfolio` executes exactly the
triggered first order and keeps the other two pending. -/
theorem claim9_witness :
    ((c9portfolio.pendingLimitOrders.map (fun o => o.id)).Nodup) ∧
    (allExecSucceedB 0.1 45000 0 c9portfolio
      (c9portfolio.pendingLimitOrders.filter (shouldExecuteOrder "BTCUSDT" 45000)) = true) ∧
    (checkAndExecuteLimitOrders 0.1 "BTCUSDT" 45000 0 c9portfolio).pendingLimitOrders =
      c9portfolio.pendingLimitOrders.filter
        (fun o => !(shouldExecuteOrder "BTCUSDT" 45000 o)) ∧
    (checkAndExecuteLimitOrders 0.1 "BTCUSDT" 45000 0 c9portfolio).trades =
      c9portfolio.trades ++
        (c9portfolio.pendingLimitOrders.filter (shouldExecuteOrder "BTCUSDT" 45000)).map
          (limitTradeRecord 0.1 45000 0) := by
  have hnd : (c9portfolio.pendingLimitOrders.map (fun o => o.id)).Nodup := by
    simp [c9portfolio]
  have hsucc : allExecSucceedB 0.1 45000 0 c9portfolio
      (c9portfolio.pendingLimitOrders.filter (shouldExecuteOrder "BTCUSDT" 45000)) = true := by
    norm_num [allExecSucceedB, executeOrdersStep, executeLimitOrder, executeMarketOrder,
      shouldExecuteOrder, c9portfolio, markLastTradeLimit]
  have hth := claim9_theorem 0.1 45000 "BTCUSDT" 0 c9portfolio hnd hsucc
  exact ⟨hnd, hsucc, hth.1, hth.2⟩

end PaperTrading
